import Mathlib

/-!
Shallow embedding of the snake-cli game logic (src/main.rs).

The stateful Rust methods on `Game` (taking `&mut self` and returning
`Result<_, GameOverState>`) are embedded in state-passing style: a call
returns `Option (Game × Option GameOverState)`, where `none` models a
panic (the `unwrap` on an empty snake, or the `unreachable!` arm),
`some (g, some e)` models an early `Err(e)` return with the state `g` the
method left behind, and `some (g, none)` models `Ok(())` with final state
`g`.  The two `random::<usize>()` draws of `gen_apple` are passed in as an
explicit pair `rng`.  Rust `usize` coordinates are `Nat`; `checked_sub` is
rendered by an explicit test against zero.
-/

namespace SnakeCli

/-- Cell classification, `enum BoardState` in src/main.rs. -/
inductive BoardState
  | Empty
  | Apple
  | Snake
  deriving DecidableEq

/-- Movement heading, `enum Direction` in src/main.rs. -/
inductive Direction
  | Left
  | Up
  | Right
  | Down
  deriving DecidableEq

/-- Channel commands, `enum Input` in src/main.rs. -/
inductive Input
  | Left
  | Up
  | Right
  | Down
  | Exit
  deriving DecidableEq

/-- Resolved per-tick action, `enum Step` in src/main.rs. -/
inductive Step
  | Turn (direction : Direction)
  | MoveAndTurn (step_direction new_direction : Direction)
  deriving DecidableEq

/-- Terminal game-over conditions, `enum GameOverState` in src/main.rs. -/
inductive GameOverState
  | SnakeBite
  | OutOfBounds
  deriving DecidableEq

/-- The `TryFrom<Input> for Direction` impl: `Input::Exit` is the error
case (`InputError::Exit`), rendered as `none`. -/
def Direction.tryFrom : Input → Option Direction
  | Input.Up => some Direction.Up
  | Input.Right => some Direction.Right
  | Input.Down => some Direction.Down
  | Input.Left => some Direction.Left
  | Input.Exit => none

/-- `Direction::valid_direction` from src/main.rs: a proposed direction is
rejected exactly when it is the 180-degree reverse of the current one. -/
def Direction.valid_direction (cur_direction new_direction : Direction) : Bool :=
  match new_direction, cur_direction with
  | Direction.Up, Direction.Down => false
  | Direction.Down, Direction.Up => false
  | Direction.Right, Direction.Left => false
  | Direction.Left, Direction.Right => false
  | _, _ => true

/-- Modelled from the spec: the "exact opposite" pairing (Up and Down,
Left and Right) used by the spec to describe `is_valid_turn`.  There is no
such function in src/main.rs; this is the spec-side definition used to
compare the validator against the spec's wording. -/
def Direction.opposite : Direction → Direction
  | Direction.Up => Direction.Down
  | Direction.Down => Direction.Up
  | Direction.Left => Direction.Right
  | Direction.Right => Direction.Left

/-- Injection of a direction back into the channel command set (used to
build concrete input sequences; `Input` carries the four directions
plus `Exit`). -/
def Direction.toInput : Direction → Input
  | Direction.Left => Input.Left
  | Direction.Up => Input.Up
  | Direction.Right => Input.Right
  | Direction.Down => Input.Down

/-- The `struct Game` of src/main.rs, minus the channel receiver (the
drained inputs are passed explicitly to `Game.tick`).  Pairs are
(row, column): Rust field `.0` is `.1` here and Rust `.1` is `.2`.
The `snake` deque is a list, front (index 0) = tail, back = head. -/
structure Game where
  apple_pos : Nat × Nat
  apple_old : Nat × Nat
  board_size : Nat × Nat
  snake : List (Nat × Nat)
  snake_old : List (Nat × Nat)
  direction : Direction
  deriving DecidableEq

/-- `Game::gen_apple`: two independent `random::<usize>()` draws reduced
modulo the board dimensions.  (Rust `%` would panic for a zero dimension;
every call site uses positive dimensions.) -/
def Game.gen_apple (rng : Nat × Nat) (max_x max_y : Nat) : Nat × Nat :=
  (rng.1 % max_x, rng.2 % max_y)

/-- `Game::new_apple`: regenerate the apple from the board dimensions. -/
def Game.new_apple (g : Game) (rng : Nat × Nat) : Game :=
  { g with apple_pos := Game.gen_apple rng g.board_size.1 g.board_size.2 }

/-- `Game::next_pos`: the cell ahead of the head in the current direction.
`self.snake.back().unwrap()` panics on an empty snake (`none`); the
`checked_sub(1).ok_or(OutOfBounds)?` calls are the explicit zero tests. -/
def Game.next_pos (g : Game) : Option (Except GameOverState (Nat × Nat)) :=
  match g.snake.getLast? with
  | none => none
  | some head =>
    match g.direction with
    | Direction.Up =>
      some (if head.1 = 0 then Except.error GameOverState.OutOfBounds
            else Except.ok (head.1 - 1, head.2))
    | Direction.Left =>
      some (if head.2 = 0 then Except.error GameOverState.OutOfBounds
            else Except.ok (head.1, head.2 - 1))
    | Direction.Down => some (Except.ok (head.1 + 1, head.2))
    | Direction.Right => some (Except.ok (head.1, head.2 + 1))

/-- `Game::check_pos`: bounds check, then apple check, then the linear
scan over the snake body (first hit returns `SnakeBite`). -/
def Game.check_pos (g : Game) (pos : Nat × Nat) : Except GameOverState BoardState :=
  if g.board_size.2 ≤ pos.2 ∨ g.board_size.1 ≤ pos.1 then
    Except.error GameOverState.OutOfBounds
  else if pos.2 = g.apple_pos.2 ∧ pos.1 = g.apple_pos.1 then
    Except.ok BoardState.Apple
  else if g.snake.any (fun snake_pos => pos.1 == snake_pos.1 && pos.2 == snake_pos.2) then
    Except.error GameOverState.SnakeBite
  else
    Except.ok BoardState.Empty

/-- `Game::advance`: compute the next cell, classify it, then on `Apple`
regenerate the apple (keeping the tail), on `Empty` pop the tail
(`pop_front`), and push the next cell as the new head (`push_back`).
The `BoardState::Snake` arm is the `unreachable!` panic, rendered as
`none`. -/
def Game.advance (g : Game) (rng : Nat × Nat) : Option (Game × Option GameOverState) :=
  match g.next_pos with
  | none => none
  | some (Except.error e) => some (g, some e)
  | some (Except.ok next_pos) =>
    match g.check_pos next_pos with
    | Except.error e => some (g, some e)
    | Except.ok BoardState.Apple =>
      let g1 := g.new_apple rng
      some ({ g1 with snake := g1.snake ++ [next_pos] }, none)
    | Except.ok BoardState.Empty =>
      let g1 := { g with snake := g.snake.tail }
      some ({ g1 with snake := g1.snake ++ [next_pos] }, none)
    | Except.ok BoardState.Snake => none

/-- `Game::get_step`: reduce the drained direction list to a step.  A
single valid turn becomes `Turn`; with two or more entries, if the
second-to-last is valid against the current direction and the last is
valid against the second-to-last, the pair becomes `MoveAndTurn`;
otherwise fall back to `Turn` of the current direction.  (The `getD`
defaults are never read: each branch guards the length.) -/
def Game.get_step (g : Game) (input : List Direction) : Step :=
  if input.length = 1 ∧
      Direction.valid_direction g.direction (input.getD 0 g.direction) = true then
    Step.Turn (input.getD 0 g.direction)
  else if 2 ≤ input.length ∧
      Direction.valid_direction g.direction (input.getD (input.length - 2) g.direction) = true ∧
      Direction.valid_direction (input.getD (input.length - 2) g.direction)
        (input.getD (input.length - 1) g.direction) = true then
    Step.MoveAndTurn (input.getD (input.length - 2) g.direction)
      (input.getD (input.length - 1) g.direction)
  else
    Step.Turn g.direction

/-- `Game::update`: set the direction and advance; for `MoveAndTurn`,
additionally set the new direction after a successful advance (a failed
advance propagates via `?`, leaving the direction at `step_direction`). -/
def Game.update (g : Game) (step : Step) (rng : Nat × Nat) :
    Option (Game × Option GameOverState) :=
  match step with
  | Step.Turn direction =>
    ({ g with direction := direction }).advance rng
  | Step.MoveAndTurn step_direction new_direction =>
    match ({ g with direction := step_direction }).advance rng with
    | none => none
    | some (g1, some e) => some (g1, some e)
    | some (g1, none) => some ({ g1 with direction := new_direction }, none)

/-- The per-command body of the drain loop in `main` (src/main.rs lines
32-46): each drained direction is applied to `g.game.direction`
immediately, guarded against 180-degree reversals. -/
def Game.eager_turn (g : Game) (direction : Direction) : Game :=
  match direction with
  | Direction.Up =>
    if g.direction = Direction.Down then g else { g with direction := direction }
  | Direction.Down =>
    if g.direction = Direction.Up then g else { g with direction := direction }
  | Direction.Right =>
    if g.direction = Direction.Left then g else { g with direction := direction }
  | Direction.Left =>
    if g.direction = Direction.Right then g else { g with direction := direction }

/-- The `while let Ok(input) = try_recv()` drain loop of the update
closure in `main`: convert each input, push it on `inputQueue`, eagerly
apply it to the direction; a conversion failure (`Input::Exit`) calls
`g.exit()`, modelled by the boolean flag, and the loop goes on.  Returns
(game after the eager turns, collected queue, exit-requested flag). -/
def Game.drain (g : Game) : List Input → Game × List Direction × Bool
  | [] => (g, [], false)
  | i :: rest =>
    match Direction.tryFrom i with
    | some d =>
      let r := Game.drain (g.eager_turn d) rest
      (r.1, d :: r.2.1, r.2.2)
    | none =>
      let r := Game.drain g rest
      (r.1, r.2.1, true)

/-- One invocation of the update closure in `main`: drain the channel,
resolve the step, run `update`; an `Err` from `update` calls `g.exit()`.
Result: `none` for a panic, otherwise the new game state and whether
exit was requested (by a Quit input or by a game-over error). -/
def Game.tick (g : Game) (inputs : List Input) (rng : Nat × Nat) :
    Option (Game × Bool) :=
  let r := Game.drain g inputs
  match r.1.update (r.1.get_step r.2.1) rng with
  | none => none
  | some (g2, some _) => some (g2, true)
  | some (g2, none) => some (g2, r.2.2)

/-- A concrete game used for witnesses and counterexamples: 10 by 10
board, two-cell snake with tail (2,5) and head (1,5), heading Right,
apple at (9,9). -/
def cg : Game :=
  { apple_pos := (9, 9), apple_old := (9, 9), board_size := (10, 10),
    snake := [(2, 5), (1, 5)], snake_old := [(2, 5), (1, 5)],
    direction := Direction.Right }

/-- A concrete game heading Left: tail (1,6), head (1,5). -/
def cg3 : Game :=
  { apple_pos := (9, 9), apple_old := (9, 9), board_size := (10, 10),
    snake := [(1, 6), (1, 5)], snake_old := [(1, 6), (1, 5)],
    direction := Direction.Left }

/-- A concrete game about to bite itself: the head (1,3) heading Up moves
into (0,3), which the body occupies. -/
def cgBite : Game :=
  { apple_pos := (9, 9), apple_old := (9, 9), board_size := (10, 10),
    snake := [(0, 2), (0, 3), (0, 4), (1, 4), (1, 3)],
    snake_old := [(0, 2), (0, 3), (0, 4), (1, 4), (1, 3)],
    direction := Direction.Up }

/-- A concrete game about to eat the apple: head (0,1) heading Right,
apple at (0,2). -/
def cgApple : Game :=
  { apple_pos := (0, 2), apple_old := (0, 2), board_size := (10, 10),
    snake := [(0, 0), (0, 1)], snake_old := [(0, 0), (0, 1)],
    direction := Direction.Right }

/-- The spec's end-to-end scenario: 5 by 5 board, snake along row 0,
heading Right; the next head cell (0,5) is out of bounds. -/
def gOOB : Game :=
  { apple_pos := (2, 2), apple_old := (2, 2), board_size := (5, 5),
    snake := [(0, 0), (0, 1), (0, 2), (0, 3), (0, 4)],
    snake_old := [(0, 0), (0, 1), (0, 2), (0, 3), (0, 4)],
    direction := Direction.Right }

/-! Helper lemmas. -/

theorem tryFrom_toInput (d : Direction) : Direction.tryFrom d.toInput = some d := by
  cases d <;> rfl

theorem valid_direction_symm (x y : Direction) :
    Direction.valid_direction x y = Direction.valid_direction y x := by
  cases x <;> cases y <;> rfl

theorem eager_turn_of_valid (g : Game) (d : Direction)
    (h : Direction.valid_direction g.direction d = true) :
    g.eager_turn d = { g with direction := d } := by
  cases hgd : g.direction <;> cases d <;>
    simp_all [Game.eager_turn, Direction.valid_direction]

theorem check_pos_ne_ok_snake (g : Game) (pos : Nat × Nat) :
    g.check_pos pos ≠ Except.ok BoardState.Snake := by
  unfold Game.check_pos
  split_ifs <;> simp

theorem tick_match_moveandturn (X : Option (Game × Option GameOverState)) (b : Direction) :
    (match (match X with
      | none => none
      | some (g1, some e) => some (g1, some e)
      | some (g1, none) => some ({ g1 with direction := b }, none)) with
     | none => none
     | some (g2, some _) => some (g2, true)
     | some (g2, none) => some (g2, false)) =
    (match X with
     | none => none
     | some (g2, some _) => some (g2, true)
     | some (g2, none) => some ({ g2 with direction := b }, false) :
       Option (Game × Bool)) := by
  cases X with
  | none => rfl
  | some pr =>
    obtain ⟨g2, eo⟩ := pr
    cases eo <;> rfl

/-! Claim theorems. -/

/-- C8: `valid_direction` returns false exactly when the proposed heading
is the opposite of the current one; reversals are always rejected and
the no-op turn is always accepted. -/
theorem c8_turn_validator :
    (∀ c p : Direction,
      Direction.valid_direction c p = false ↔ p = Direction.opposite c) ∧
    (∀ h : Direction,
      Direction.valid_direction h (Direction.opposite h) = false ∧
      Direction.valid_direction h h = true) := by
  constructor
  · intro c p
    cases c <;> cases p <;> decide
  · intro h
    cases h <;> decide

/-- C4: `next_pos` decrements the row for Up and the column for Left
(yielding `OutOfBounds` when the coordinate is already zero, with no
wraparound), increments the row for Down and the column for Right, and
`check_pos` classifies any cell with row at or past `rows` or column at
or past `cols` as `OutOfBounds`. -/
theorem c4_next_cell_bounds (g : Game) (head : Nat × Nat)
    (h : g.snake.getLast? = some head) :
    (g.direction = Direction.Up →
      g.next_pos = some (if head.1 = 0 then Except.error GameOverState.OutOfBounds
        else Except.ok (head.1 - 1, head.2))) ∧
    (g.direction = Direction.Down →
      g.next_pos = some (Except.ok (head.1 + 1, head.2))) ∧
    (g.direction = Direction.Left →
      g.next_pos = some (if head.2 = 0 then Except.error GameOverState.OutOfBounds
        else Except.ok (head.1, head.2 - 1))) ∧
    (g.direction = Direction.Right →
      g.next_pos = some (Except.ok (head.1, head.2 + 1))) ∧
    (∀ pos : Nat × Nat, g.board_size.1 ≤ pos.1 ∨ g.board_size.2 ≤ pos.2 →
      g.check_pos pos = Except.error GameOverState.OutOfBounds) := by
  refine ⟨?_, ?_, ?_, ?_, ?_⟩
  · intro hd; simp only [Game.next_pos, h, hd]
  · intro hd; simp only [Game.next_pos, h, hd]
  · intro hd; simp only [Game.next_pos, h, hd]
  · intro hd; simp only [Game.next_pos, h, hd]
  · intro pos hp
    unfold Game.check_pos
    rw [if_pos (by omega : g.board_size.2 ≤ pos.2 ∨ g.board_size.1 ≤ pos.1)]

/-- C4 witness: on the concrete game `cg` (heading Right, head (1,5))
the next cell is (1,6). -/
theorem c4_next_cell_bounds_witness : Game.next_pos cg = some (Except.ok (1, 6)) :=
  (c4_next_cell_bounds cg (1, 5) rfl).2.2.2.1 rfl

/-- C5: advancing into an in-bounds cell occupied by the snake body and
distinct from the apple returns the terminal failure `SnakeBite` (with
the state unchanged). -/
theorem c5_snake_bite (g : Game) (rng : Nat × Nat) (p : Nat × Nat)
    (hnp : g.next_pos = some (Except.ok p))
    (hrow : p.1 < g.board_size.1) (hcol : p.2 < g.board_size.2)
    (hap : p ≠ g.apple_pos) (hmem : p ∈ g.snake) :
    g.advance rng = some (g, some GameOverState.SnakeBite) := by
  have hb : ¬(g.board_size.2 ≤ p.2 ∨ g.board_size.1 ≤ p.1) := by omega
  have ha : ¬(p.2 = g.apple_pos.2 ∧ p.1 = g.apple_pos.1) := by
    intro hc
    exact hap (Prod.ext hc.2 hc.1)
  have hsn : (g.snake.any fun snake_pos => p.1 == snake_pos.1 && p.2 == snake_pos.2) = true := by
    simp only [List.any_eq_true, Bool.and_eq_true, beq_iff_eq]
    exact ⟨p, hmem, rfl, rfl⟩
  have hcp : g.check_pos p = Except.error GameOverState.SnakeBite := by
    unfold Game.check_pos
    rw [if_neg hb, if_neg ha, if_pos hsn]
  simp only [Game.advance, hnp, hcp]

/-- C5 witness: the concrete game `cgBite` (head (1,3) heading Up, body
at (0,3)) dies of `SnakeBite` with the state unchanged. -/
theorem c5_snake_bite_witness :
    Game.advance cgBite (0, 0) = some (cgBite, some GameOverState.SnakeBite) :=
  c5_snake_bite cgBite (0, 0) (0, 3) rfl (by decide) (by decide) (by decide) (by decide)

/-- C6: advancing onto the apple (in bounds) keeps the tail, pushes the
new head (length L+1), and regenerates the apple as the single raw pair
of draws reduced modulo the board dimensions — in range on both axes and
with no retry should the new cell lie on the snake body (the new apple
does not depend on the snake at all). -/
theorem c6_apple_growth (g : Game) (rng : Nat × Nat) (p : Nat × Nat)
    (hnp : g.next_pos = some (Except.ok p))
    (hrow : p.1 < g.board_size.1) (hcol : p.2 < g.board_size.2)
    (hap : p = g.apple_pos) :
    g.advance rng =
      some ({ g with
        apple_pos := (rng.1 % g.board_size.1, rng.2 % g.board_size.2),
        snake := g.snake ++ [p] }, none) ∧
    (g.snake ++ [p]).length = g.snake.length + 1 ∧
    rng.1 % g.board_size.1 < g.board_size.1 ∧
    rng.2 % g.board_size.2 < g.board_size.2 := by
  have hb : ¬(g.board_size.2 ≤ p.2 ∨ g.board_size.1 ≤ p.1) := by omega
  have ha : p.2 = g.apple_pos.2 ∧ p.1 = g.apple_pos.1 := by
    rw [hap]; exact ⟨rfl, rfl⟩
  have hcp : g.check_pos p = Except.ok BoardState.Apple := by
    unfold Game.check_pos
    rw [if_neg hb, if_pos ha]
  refine ⟨?_, ?_, ?_, ?_⟩
  · simp only [Game.advance, hnp, hcp, Game.new_apple, Game.gen_apple]
  · simp
  · exact Nat.mod_lt _ (by omega)
  · exact Nat.mod_lt _ (by omega)

/-- C6 witness: `cgApple` (length 2, head (0,1) heading Right, apple at
(0,2)) grows to length 3 and the apple moves to the raw draw (3,4). -/
theorem c6_apple_growth_witness :
    Game.advance cgApple (3, 4) =
      some ({ cgApple with
        apple_pos := (3 % 10, 4 % 10),
        snake := [(0, 0), (0, 1)] ++ [(0, 2)] }, none) ∧
    ([(0, 0), (0, 1)] ++ [(0, 2)] : List (Nat × Nat)).length = 2 + 1 ∧
    3 % 10 < 10 ∧ 4 % 10 < 10 :=
  c6_apple_growth cgApple (3, 4) (0, 2) rfl (by decide) (by decide) rfl

/-- C7: advancing onto an in-bounds cell that is neither the apple nor
part of the snake body pops the tail and pushes the new head, leaving
the length unchanged. -/
theorem c7_normal_move (g : Game) (rng : Nat × Nat) (p : Nat × Nat)
    (hnp : g.next_pos = some (Except.ok p))
    (hrow : p.1 < g.board_size.1) (hcol : p.2 < g.board_size.2)
    (hap : p ≠ g.apple_pos) (hmem : p ∉ g.snake) :
    g.advance rng = some ({ g with snake := g.snake.tail ++ [p] }, none) ∧
    (g.snake.tail ++ [p]).length = g.snake.length := by
  have hb : ¬(g.board_size.2 ≤ p.2 ∨ g.board_size.1 ≤ p.1) := by omega
  have ha : ¬(p.2 = g.apple_pos.2 ∧ p.1 = g.apple_pos.1) := by
    intro hc
    exact hap (Prod.ext hc.2 hc.1)
  have hsn : (g.snake.any fun snake_pos => p.1 == snake_pos.1 && p.2 == snake_pos.2) = false := by
    by_contra hq
    rw [Bool.not_eq_false, List.any_eq_true] at hq
    obtain ⟨x, hx, hpx⟩ := hq
    simp only [Bool.and_eq_true, beq_iff_eq] at hpx
    exact hmem (by rw [show p = x from Prod.ext hpx.1 hpx.2]; exact hx)
  have hsne : g.snake ≠ [] := by
    intro h0
    unfold Game.next_pos at hnp
    rw [h0] at hnp
    simp at hnp
  have hcp : g.check_pos p = Except.ok BoardState.Empty := by
    unfold Game.check_pos
    rw [if_neg hb, if_neg ha, if_neg (by simp [hsn])]
  constructor
  · simp only [Game.advance, hnp, hcp]
  · have hlen : 1 ≤ g.snake.length := by
      cases hc : g.snake with
      | nil => exact absurd hc hsne
      | cons x xs => simp
    simp only [List.length_append, List.length_tail, List.length_singleton]
    omega

/-- C7 witness: `cg` (length 2, head (1,5) heading Right) moves to (1,6)
keeping length 2. -/
theorem c7_normal_move_witness :
    Game.advance cg (0, 0) =
      some ({ cg with snake := [(2, 5), (1, 5)].tail ++ [(1, 6)] }, none) ∧
    ([(2, 5), (1, 5)].tail ++ [(1, 6)] : List (Nat × Nat)).length = 2 :=
  c7_normal_move cg (0, 0) (1, 6) rfl (by decide) (by decide) (by decide) (by decide)

/-- C9: `check_pos` never returns the `Snake` classification as a success
value, and whenever `next_pos` produced a value (so the head lookup did
not panic), `advance` cannot panic — the `unreachable` Snake arm never
executes. -/
theorem c9_snake_branch_unreachable :
    (∀ (g : Game) (pos : Nat × Nat), g.check_pos pos ≠ Except.ok BoardState.Snake) ∧
    (∀ (g : Game) (rng : Nat × Nat) (r : Except GameOverState (Nat × Nat)),
      g.next_pos = some r → g.advance rng ≠ none) := by
  refine ⟨check_pos_ne_ok_snake, ?_⟩
  intro g rng r hr
  cases r with
  | error e => simp [Game.advance, hr]
  | ok p =>
    cases hcp : g.check_pos p with
    | error e => simp [Game.advance, hr, hcp]
    | ok bs =>
      cases bs with
      | Apple => simp [Game.advance, hr, hcp]
      | Empty => simp [Game.advance, hr, hcp]
      | Snake => exact absurd hcp (check_pos_ne_ok_snake g p)

/-- C9 witness: on the concrete game `cg` the advance does not panic. -/
theorem c9_snake_branch_unreachable_witness : Game.advance cg (0, 0) ≠ none :=
  c9_snake_branch_unreachable.2 cg (0, 0) (Except.ok (1, 6)) rfl

/-- C10: if `advance` returns a game-over error, the whole state — in
particular the snake body and the apple position — is exactly the state
passed in: both failure checks run before any mutation. -/
theorem c10_error_atomicity (g : Game) (rng : Nat × Nat) (g' : Game) (e : GameOverState)
    (h : g.advance rng = some (g', some e)) :
    g' = g ∧ g'.snake = g.snake ∧ g'.apple_pos = g.apple_pos := by
  unfold Game.advance at h
  split at h
  · exact Option.noConfusion h
  · simp only [Option.some.injEq, Prod.mk.injEq] at h
    obtain ⟨hg, _⟩ := h
    subst hg
    exact ⟨rfl, rfl, rfl⟩
  · split at h
    · simp only [Option.some.injEq, Prod.mk.injEq] at h
      obtain ⟨hg, _⟩ := h
      subst hg
      exact ⟨rfl, rfl, rfl⟩
    · simp at h
    · simp at h
    · exact Option.noConfusion h

/-- C10 witness: the spec's end-to-end scenario — 5 by 5 board, snake
along row 0 heading Right — hits `OutOfBounds` with the state intact. -/
theorem c10_error_atomicity_witness :
    Game.advance gOOB (0, 0) = some (gOOB, some GameOverState.OutOfBounds) ∧
    gOOB = gOOB ∧ gOOB.snake = gOOB.snake ∧ gOOB.apple_pos = gOOB.apple_pos :=
  ⟨by decide, c10_error_atomicity gOOB (0, 0) gOOB GameOverState.OutOfBounds (by decide)⟩

/-- C1 counterexample: on `cg` (heading Right) with drained queue
[Up, Down], the last-two validation fails — `valid_direction Up Down`
is false, so `is_valid_turn(a, b)` fails no matter which heading counts
as current — yet the tick does NOT advance using the tick-start heading
Right unchanged: the drain loop eagerly set the heading to Up, and the
snake moves Up (head (1,5) to (0,5), not to (1,6)). -/
theorem c1_counterexample :
    Direction.valid_direction Direction.Up Direction.Down = false ∧
    Game.tick cg [Input.Up, Input.Down] (0, 0) =
      some ({ cg with snake := [(1, 5), (0, 5)], direction := Direction.Up }, false) ∧
    Game.tick cg [Input.Up, Input.Down] (0, 0) ≠
      some ({ cg with snake := [(1, 5), (1, 6)] }, false) ∧
    Direction.Up ≠ Direction.Right := by
  refine ⟨rfl, by decide, by decide, by decide⟩

/-- C1 amended: the fallback holds of the step resolver relative to the
heading as it stands when `get_step` runs — i.e. after the drain loop has
already eagerly applied each individually-valid queued command to the
heading.  For every game state and queue whose validation (against that
post-drain heading) fails, `get_step` returns `Turn` of that heading and
the tick's update is exactly one `advance` with the heading unchanged;
the tick-start heading, however, may already have been changed during
the drain, so at tick level the queued turns can affect the heading. -/
theorem c1_fallback_postdrain (g : Game) (q : List Direction) (rng : Nat × Nat)
    (_hne : q ≠ [])
    (h1 : ¬(q.length = 1 ∧
      Direction.valid_direction g.direction (q.getD 0 g.direction) = true))
    (h2 : ¬(2 ≤ q.length ∧
      Direction.valid_direction g.direction (q.getD (q.length - 2) g.direction) = true ∧
      Direction.valid_direction (q.getD (q.length - 2) g.direction)
        (q.getD (q.length - 1) g.direction) = true)) :
    g.get_step q = Step.Turn g.direction ∧
    g.update (g.get_step q) rng = g.advance rng := by
  have hs : g.get_step q = Step.Turn g.direction := by
    unfold Game.get_step
    rw [if_neg h1, if_neg h2]
  refine ⟨hs, ?_⟩
  rw [hs]
  show ({ g with direction := g.direction } : Game).advance rng = g.advance rng
  rfl

/-- C1 witness: on `cg` (heading Right) the singleton queue [Left] is an
invalid turn, so the resolver falls back to Turn Right and the update is
a plain advance. -/
theorem c1_fallback_postdrain_witness :
    Game.get_step cg [Direction.Left] = Step.Turn cg.direction ∧
    Game.update cg (Game.get_step cg [Direction.Left]) (0, 0) = Game.advance cg (0, 0) :=
  c1_fallback_postdrain cg [Direction.Left] (0, 0) (by decide) (by decide) (by decide)

/-- C2 counterexample: on `cg`, the input batch [Exit, Up] contains a
Quit command, yet the tick is not aborted: the later Up command is still
applied to the heading, a step is still resolved, and the snake still
advances (head (1,5) to (0,5)); the Quit only sets the exit flag. -/
theorem c2_counterexample :
    Game.tick cg [Input.Exit, Input.Up] (0, 0) =
      some ({ cg with snake := [(1, 5), (0, 5)], direction := Direction.Up }, true) ∧
    ({ cg with snake := [(1, 5), (0, 5)], direction := Direction.Up } : Game).snake ≠
      cg.snake := by
  refine ⟨by decide, by decide⟩

/-- C2 amended: a Quit (`Input.Exit`) observed during the drain sets the
exit flag — the loop stops only after the current tick — while draining
continues past it: whenever a tick's input batch contains an Exit and the
tick completes without panicking, the exit flag of the result is true,
and the drain of `Exit :: rest` processes `rest` exactly as it would
have without the Exit, merely forcing the flag. -/
theorem c2_quit_flags_exit :
    (∀ (g : Game) (inputs : List Input) (rng : Nat × Nat) (g' : Game) (e : Bool),
      Input.Exit ∈ inputs → Game.tick g inputs rng = some (g', e) → e = true) ∧
    (∀ (g : Game) (rest : List Input),
      Game.drain g (Input.Exit :: rest) =
        ((Game.drain g rest).1, (Game.drain g rest).2.1, true)) := by
  constructor
  · intro g inputs rng g' e hmem htick
    have hflag : (Game.drain g inputs).2.2 = true := by
      clear htick
      induction inputs generalizing g with
      | nil => cases hmem
      | cons i rest ih =>
        rcases List.mem_cons.mp hmem with hi | hi
        · subst hi
          simp [Game.drain, Direction.tryFrom]
        · cases hd : Direction.tryFrom i with
          | some d => simpa [Game.drain, hd] using ih (g.eager_turn d) hi
          | none => simp [Game.drain, hd]
    simp only [Game.tick] at htick
    split at htick
    · exact Option.noConfusion htick
    · simp only [Option.some.injEq, Prod.mk.injEq] at htick
      exact htick.2.symm
    · simp only [Option.some.injEq, Prod.mk.injEq] at htick
      rw [← htick.2]
      exact hflag
  · intro g rest
    simp [Game.drain, Direction.tryFrom]

/-- C2 witness: the concrete batch [Exit, Up] on `cg` yields exit flag
true. -/
theorem c2_quit_flags_exit_witness : (true : Bool) = true :=
  c2_quit_flags_exit.1 cg [Input.Exit, Input.Up] (0, 0)
    ({ cg with snake := [(1, 5), (0, 5)], direction := Direction.Up }) true
    (by decide) (by decide)

/-- C3 counterexample: on `cg3` (heading Left) with drained queue
[Down, Up, Up] of length 3, the last two entries a = Up, b = Up satisfy
`is_valid_turn(Left, Up)` and `is_valid_turn(Up, Up)`, yet the tick does
NOT advance using heading Up with final heading Up: the drain loop
eagerly set the heading to Down (the first queued command), `get_step`'s
validation of Up against Down fails, and the snake moves Down with final
heading Down. -/
theorem c3_counterexample :
    Direction.valid_direction cg3.direction Direction.Up = true ∧
    Direction.valid_direction Direction.Up Direction.Up = true ∧
    Game.tick cg3 [Input.Down, Input.Up, Input.Up] (0, 0) =
      some ({ cg3 with snake := [(1, 5), (2, 5)], direction := Direction.Down }, false) ∧
    Direction.Down ≠ Direction.Up := by
  refine ⟨rfl, rfl, by decide, by decide⟩

/-- C3 amended: the two-phase behaviour holds for a drained queue of
length exactly two.  For every game state with heading c and queued
turns a then b with `is_valid_turn(c, a)` and `is_valid_turn(a, b)`, the
tick performs exactly one advance, using heading a, and on success the
stored heading afterwards is b (set without a second advance); a failed
advance leaves the heading at a.  (For longer queues the eager per-command
heading updates of the drain loop can defeat the validation, see the
counterexample.) -/
theorem c3_two_phase_step (g : Game) (a b : Direction) (rng : Nat × Nat)
    (h1 : Direction.valid_direction g.direction a = true)
    (h2 : Direction.valid_direction a b = true) :
    Game.tick g [a.toInput, b.toInput] rng =
      match ({ g with direction := a } : Game).advance rng with
      | none => none
      | some (g2, some _) => some (g2, true)
      | some (g2, none) => some ({ g2 with direction := b }, false) := by
  have hd1 : g.eager_turn a = { g with direction := a } := eager_turn_of_valid g a h1
  have hd2 : ({ g with direction := a } : Game).eager_turn b = { g with direction := b } :=
    eager_turn_of_valid { g with direction := a } b h2
  have hdrain : Game.drain g [a.toInput, b.toInput] =
      ({ g with direction := b }, [a, b], false) := by
    simp [Game.drain, tryFrom_toInput, hd1, hd2]
  have hba : Direction.valid_direction b a = true := by
    rw [valid_direction_symm]; exact h2
  have hstep : ({ g with direction := b } : Game).get_step [a, b] = Step.MoveAndTurn a b := by
    simp [Game.get_step, hba, h2]
  simp only [Game.tick, hdrain, hstep]
  exact tick_match_moveandturn (({ g with direction := a } : Game).advance rng) b

/-- C3 witness: on `cg` (heading Right) the queued pair Up then Left is
doubly valid, so the tick advances once using Up and then stores Left. -/
theorem c3_two_phase_step_witness :
    Game.tick cg [Direction.Up.toInput, Direction.Left.toInput] (0, 0) =
      match ({ cg with direction := Direction.Up } : Game).advance (0, 0) with
      | none => none
      | some (g2, some _) => some (g2, true)
      | some (g2, none) => some ({ g2 with direction := Direction.Left }, false) :=
  c3_two_phase_step cg Direction.Up Direction.Left (0, 0) (by decide) (by decide)

end SnakeCli
